import Mathlib

/-!
# TinyGPT-MCP: verification of the tool-call orchestration core and frontend

Shallow embedding of the TinyGPT-MCP repository.  The repository ships the
React/vanilla-JS frontend (`src/app.js`, `src/src/...`, the unnamed React
components and the axios service layer) together with the README describing the
FastAPI backend; the backend core itself (`backend/core/mcp_engine.py`,
`tool_manager.py`, the rate limiter) is not part of the source tree, so the
Registry / Extractor / Admission Controller / Orchestrator are modelled from
the specification (each such definition says so in its doc comment).  The
frontend functions (`formatToolResult`, `handleSendMessage`,
`AuthProvider`'s mount effect) are embedded from the shipped source.
-/

namespace TinyGPT

/-! ## JavaScript/JSON values

Tool results and extracted arguments are untyped JSON payloads (`result: any`
in `apiService.ts`, values produced by `JSON.parse` of an HTTP body), possibly
`undefined`.  We model exactly that domain: JSON values plus `undefined`.
Numbers are modelled as integers (the payloads the claims touch never depend
on float-specific behaviour). -/

inductive JsValue where
  | null : JsValue
  | undef : JsValue
  | bool : Bool → JsValue
  | num : Int → JsValue
  | str : String → JsValue
  | arr : List JsValue → JsValue
  | obj : List (String × JsValue) → JsValue

/-- JavaScript `typeof v`.  `typeof null` is `"object"`, as are arrays. -/
def JsValue.typeofStr : JsValue → String
  | .null => "object"
  | .undef => "undefined"
  | .bool _ => "boolean"
  | .num _ => "number"
  | .str _ => "string"
  | .arr _ => "object"
  | .obj _ => "object"

/-- True exactly for `null` and `undefined`. -/
def JsValue.isNullish : JsValue → Bool
  | .null => true
  | .undef => true
  | _ => false

/-- JSON string escaping for one character (quote, backslash and the common
control characters; other characters pass through). -/
def escapeJsonChar (c : Char) : String :=
  if c = '"' then "\\\""
  else if c = '\\' then "\\\\"
  else if c = '\n' then "\\n"
  else if c = '\t' then "\\t"
  else if c = '\r' then "\\r"
  else String.singleton c

/-- A JSON string literal: the escaped text between double quotes. -/
def quoteJson (s : String) : String :=
  "\"" ++ String.join (s.data.map escapeJsonChar) ++ "\""

/-- A run of `n` spaces. -/
def indentStr (n : Nat) : String := String.mk (List.replicate n ' ')

mutual
/-- Embedding of `JSON.stringify(v, null, 2)` at the given current indentation: primitives
render as JSON literals, non-empty arrays and objects open a line-broken,
two-space-indented block.  An `undefined` array element renders as `null`
exactly as in JavaScript (tool results are parsed JSON, so `undefined` never
occurs nested inside an object). -/
def stringifyV : JsValue → Nat → String
  | .null, _ => "null"
  | .undef, _ => "null"
  | .bool b, _ => if b then "true" else "false"
  | .num i, _ => toString i
  | .str s, _ => quoteJson s
  | .arr [], _ => "[]"
  | .arr (v :: vs), ind =>
    "[\n" ++ stringifyItems (v :: vs) (ind + 2) ++ "\n" ++ indentStr ind ++ "]"
  | .obj [], _ => "\x7b\x7d"
  | .obj (f :: fs), ind =>
    "\x7b\n" ++ stringifyFields (f :: fs) (ind + 2) ++ "\n" ++ indentStr ind ++ "\x7d"

/-- Comma-and-newline separated array items, each on its own indented line. -/
def stringifyItems : List JsValue → Nat → String
  | [], _ => ""
  | [v], ind => indentStr ind ++ stringifyV v ind
  | v :: rest, ind =>
    indentStr ind ++ stringifyV v ind ++ ",\n" ++ stringifyItems rest ind

/-- Comma-and-newline separated object fields, each on its own indented line. -/
def stringifyFields : List (String × JsValue) → Nat → String
  | [], _ => ""
  | [(k, v)], ind => indentStr ind ++ quoteJson k ++ ": " ++ stringifyV v ind
  | (k, v) :: rest, ind =>
    indentStr ind ++ quoteJson k ++ ": " ++ stringifyV v ind ++ ",\n" ++
      stringifyFields rest ind
end

mutual
/-- JavaScript `String(v)`: `"null"`, `"undefined"`, boolean and number
literals, the string itself, `Array.prototype.toString` (comma join with
nullish elements rendered empty) for arrays, `"[object Object]"` for plain
objects. -/
def jsString : JsValue → String
  | .null => "null"
  | .undef => "undefined"
  | .bool b => if b then "true" else "false"
  | .num i => toString i
  | .str s => s
  | .arr l => jsJoinItems l
  | .obj _ => "[object Object]"

/-- Embedding of `Array.prototype.join(",")`: nullish elements become the empty string. -/
def jsJoinItems : List JsValue → String
  | [] => ""
  | [v] => if v.isNullish then "" else jsString v
  | v :: rest =>
    (if v.isNullish then "" else jsString v) ++ "," ++ jsJoinItems rest
end

/-! ## Tool Registry

Modelled from the spec: the backend `tool_manager.py` is not in the source
tree.  Spec §4.1: `register(descriptor)` fails with `DuplicateNameError` if the
name already exists; `lookup(name) → descriptor | NotFound`;
`setEnabled(name, enabled) → previous state | NotFound`; `listAll()` returns
descriptors in registration order.  The registry is the ordered list of
registered descriptors (registration order), with dictionary semantics by
name. -/

structure ParamSpec where
  type : String
  required : Bool
deriving Repr, DecidableEq

structure ToolDescriptor where
  name : String
  category : String
  parameterSchema : List (String × ParamSpec)
  enabled : Bool
deriving Repr, DecidableEq

abbrev Registry := List ToolDescriptor

/-- Modelled from the spec: `listAll() → ordered sequence of descriptors`
(stable order = registration order). -/
def listAll (reg : Registry) : List ToolDescriptor := reg

/-- Modelled from the spec: `lookup(name) → descriptor | NotFound`. -/
def lookup : Registry → String → Option ToolDescriptor
  | [], _ => none
  | d :: rest, n => if d.name = n then some d else lookup rest n

inductive RegisterError where
  | duplicateName : RegisterError
deriving Repr, DecidableEq

/-- Modelled from the spec: `register(descriptor)` adds a Tool Descriptor and
fails with `DuplicateNameError` if the name already exists; a successful
registration appends at the end (listAll order = registration order). -/
def register (reg : Registry) (d : ToolDescriptor) : Except RegisterError Registry :=
  if (lookup reg d.name).isSome then .error .duplicateName
  else .ok (reg ++ [d])

/-- Modelled from the spec: `setEnabled(name, enabled) → previous state |
NotFound`: sets the `enabled` flag of the named tool and returns the flag's
previous value together with the updated registry; `none` when the name is not
registered. -/
def setEnabled : Registry → String → Bool → Option (Bool × Registry)
  | [], _, _ => none
  | d :: rest, n, e =>
    if d.name = n then some (d.enabled, { d with enabled := e } :: rest)
    else (setEnabled rest n e).map (fun p => (p.1, d :: p.2))

/-! ## Invocations and Outcomes

Modelled from the spec: `mcp_engine.py` is not in the source tree.  Spec §3:
an Invocation is `toolName` plus `rawArguments`; an Outcome records
`toolName`, the validated `arguments`, `success`, `result` (present iff
success), `errorKind` (present iff failure) and measured duration.  The
wire shape these model is the `ToolCall` interface of the frontend service
layer (`tool`, `params`, `result`, `success`, `execution_time`, `error?`). -/

structure Invocation where
  toolName : String
  rawArguments : List (String × JsValue)

inductive ErrorKind where
  | unknownTool : ErrorKind
  | toolDisabled : ErrorKind
  | invalidArguments : ErrorKind
  | toolExecutionFailure : String → ErrorKind
deriving Repr, DecidableEq

structure Outcome where
  toolName : String
  arguments : List (String × JsValue)
  success : Bool
  result : Option JsValue
  errorKind : Option ErrorKind
  durationMeasured : Nat

/-- A failed Outcome: no result, the given error kind. -/
def failedOutcome (name : String) (args : List (String × JsValue))
    (e : ErrorKind) : Outcome :=
  { toolName := name, arguments := args, success := false,
    result := none, errorKind := some e, durationMeasured := 0 }

/-- Modelled from the spec: argument validation against the declared parameter
schema — a missing required parameter fails validation (`none`); otherwise the
raw arguments are passed through (the spec leaves the coercion table open, so
the model validates presence only). -/
def validateArgs (schema : List (String × ParamSpec))
    (raw : List (String × JsValue)) : Option (List (String × JsValue)) :=
  if schema.all (fun p => !p.2.required || raw.any (fun a => a.1 = p.1)) then
    some raw
  else none

/-- An external tool-execution collaborator: for a tool name and validated
arguments, a value or an upstream failure message, with the measured wall
time of the attempt (spec §6, `execute(arguments) → value | ExecutionFailure`;
wall time is an opaque number supplied by the collaborator). -/
abbrev Executor := String → List (String × JsValue) → Except String JsValue × Nat

/-- Modelled from the spec (§4.4 step 4): resolve one Invocation against the
Registry — unknown name, disabled tool and invalid arguments each give the
corresponding failed Outcome; otherwise the execution collaborator runs and
its failure or value becomes the Outcome.  Total: every Invocation produces
exactly one Outcome. -/
def resolveInvocation (reg : Registry) (exec : Executor) (inv : Invocation) :
    Outcome :=
  match lookup reg inv.toolName with
  | none => failedOutcome inv.toolName inv.rawArguments .unknownTool
  | some d =>
    if !d.enabled then failedOutcome inv.toolName inv.rawArguments .toolDisabled
    else
      match validateArgs d.parameterSchema inv.rawArguments with
      | none => failedOutcome inv.toolName inv.rawArguments .invalidArguments
      | some args =>
        match exec d.name args with
        | (.error msg, t) =>
          { toolName := inv.toolName, arguments := args, success := false,
            result := none, errorKind := some (.toolExecutionFailure msg),
            durationMeasured := t }
        | (.ok v, t) =>
          { toolName := inv.toolName, arguments := args, success := true,
            result := some v, errorKind := none, durationMeasured := t }

/-- Modelled from the spec (§4.4): dispatch every Invocation independently;
the outcomes sequence preserves extraction order (outcome i belongs to
invocation i), whatever the completion order of the concurrent dispatches. -/
def dispatchAll (reg : Registry) (exec : Executor) (invs : List Invocation) :
    List Outcome :=
  invs.map (resolveInvocation reg exec)

/-! ## Call Extractor

Modelled from the spec: the backend extraction code is not in the source
tree.  Spec §4.2 and the README: a tool marker is a matching
`<tool>…</tool>` delimiter pair wrapping a tool name (matched
case-insensitively, trimmed), optionally followed by an argument block —
here, inside the marker after a colon, comma-separated `key=value` pairs
whose values may contain spaces.  Unmatched or malformed markers (an open
delimiter with no close, an open nested inside an unterminated marker) are
skipped, never fatal; duplicates are preserved in left-to-right order. -/

def openTag : List Char := "<tool>".data

def closeTag : List Char := "</tool>".data

/-- Strip leading and trailing whitespace from a character sequence. -/
def trimChars (l : List Char) : List Char :=
  ((l.dropWhile Char.isWhitespace).reverse.dropWhile Char.isWhitespace).reverse

/-- Split a character sequence at every occurrence of `sep` (the separator is
dropped); always returns at least one group. -/
def splitOnChar (sep : Char) : List Char → List (List Char)
  | [] => [[]]
  | c :: rest =>
    match splitOnChar sep rest with
    | [] => if c = sep then [[], []] else [[c]]
    | g :: gs => if c = sep then [] :: g :: gs else (c :: g) :: gs

/-- Split a character sequence at the first occurrence of `sep`: the part
before it and, when the separator occurs, the part after it. -/
def splitFirstChar (sep : Char) : List Char → List Char × Option (List Char)
  | [] => ([], none)
  | c :: rest =>
    if c = sep then ([], some rest)
    else
      let p := splitFirstChar sep rest
      (c :: p.1, p.2)

/-- One `key=value` argument: key before the first `=` (trimmed), value the
raw text after it, kept verbatim — values may contain spaces, and the
coercion table is an open question in the spec, so extracted values stay
untyped strings.  Without an `=` the whole text is the key and the value is
empty. -/
def parseArgPair (cs : List Char) : String × JsValue :=
  match splitFirstChar '=' cs with
  | (k, none) => (String.mk (trimChars k), JsValue.str "")
  | (k, some v) => (String.mk (trimChars k), JsValue.str (String.mk v))

/-- The text between an open and its close delimiter becomes one Invocation:
the part before the first colon is the tool name (trimmed and lower-cased for
case-insensitive matching), the rest is the comma-separated argument block. -/
def parseInvocation (cs : List Char) : Invocation :=
  match splitFirstChar ':' cs with
  | (name, none) =>
    { toolName := String.mk ((trimChars name).map Char.toLower),
      rawArguments := [] }
  | (name, some args) =>
    { toolName := String.mk ((trimChars name).map Char.toLower),
      rawArguments := (splitOnChar ',' args).map parseArgPair }

/-- The tolerant scanner.  Outside a marker (`acc = none`) it looks for an
open delimiter; inside one (`acc = some`, accumulating the wrapped text in
reverse) it looks for the close delimiter, restarting on a nested open
(the unterminated outer marker is skipped).  Text still inside a marker when
the input ends is discarded: an open without a close is omitted.  The fuel
argument (instantiated with the input length, an upper bound on the number of
steps since every step consumes at least one character) makes the recursion
structural. -/
def scanGo : Nat → List Char → Option (List Char) → List Invocation
  | 0, _, _ => []
  | _ + 1, [], _ => []
  | fuel + 1, c :: rest, none =>
    if openTag.isPrefixOf (c :: rest) then
      scanGo fuel ((c :: rest).drop openTag.length) (some [])
    else scanGo fuel rest none
  | fuel + 1, c :: rest, some seenRev =>
    if closeTag.isPrefixOf (c :: rest) then
      parseInvocation seenRev.reverse ::
        scanGo fuel ((c :: rest).drop closeTag.length) none
    else if openTag.isPrefixOf (c :: rest) then
      scanGo fuel ((c :: rest).drop openTag.length) (some [])
    else scanGo fuel rest (some (c :: seenRev))

/-- Modelled from the spec: the Call Extractor, a pure total function from
text to the ordered sequence of extracted Invocations. -/
def extract (text : String) : List Invocation :=
  scanGo text.data.length text.data none

/-- Whether `pat` occurs as a contiguous substring of `s`. -/
def containsSeq (pat : List Char) : List Char → Bool
  | [] => false
  | c :: rest => pat.isPrefixOf (c :: rest) || containsSeq pat rest

/-! ## Admission Controller

Modelled from the spec: the backend rate limiter is not in the source tree.
Spec §4.3: per (identity, action class) state `windowStart`, `countInWindow`
against a configured `windowDuration` and `limitForClass`; on each check,
reset the window if it has elapsed, then reject with `RateLimited` (carrying
the remaining wait) when the count has reached the limit, else increment and
admit.  Times are in abstract ticks (Nat). -/

structure QuotaConfig where
  windowDuration : Nat
  limitForClass : Nat
deriving Repr, DecidableEq

structure QuotaWindow where
  windowStart : Nat
  countInWindow : Nat
deriving Repr, DecidableEq

inductive AdmitResult where
  | admitted : AdmitResult
  | rejected : Nat → AdmitResult
deriving Repr, DecidableEq

/-- Modelled from the spec: if `now - windowStart >= windowDuration`, reset
`windowStart = now, countInWindow = 0`. -/
def resetIfElapsed (cfg : QuotaConfig) (now : Nat) (w : QuotaWindow) :
    QuotaWindow :=
  if cfg.windowDuration ≤ now - w.windowStart then
    { windowStart := now, countInWindow := 0 }
  else w

/-- Modelled from the spec: one admission check at time `now` — reset the
window if elapsed; reject with the remaining wait
`windowDuration - (now - windowStart)` when `countInWindow ≥ limitForClass`;
otherwise increment the count and admit. -/
def check (cfg : QuotaConfig) (now : Nat) (w : QuotaWindow) :
    AdmitResult × QuotaWindow :=
  let w := resetIfElapsed cfg now w
  if cfg.limitForClass ≤ w.countInWindow then
    (.rejected (cfg.windowDuration - (now - w.windowStart)), w)
  else (.admitted, { w with countInWindow := w.countInWindow + 1 })

/-- A sequence of admission checks at the given times, left to right,
threading the quota state and collecting each check's result. -/
def runChecks (cfg : QuotaConfig) (w : QuotaWindow) :
    List Nat → List AdmitResult × QuotaWindow
  | [] => ([], w)
  | t :: ts =>
    let (r, w') := check cfg t w
    let (rs, w'') := runChecks cfg w' ts
    (r :: rs, w'')

/-! ## Orchestrator

Modelled from the spec: `mcp_engine.py` is not in the source tree.  Spec §4.4,
`handleTurn(prompt, identity, temperature)`: admission check first (a
rejection terminates the turn with `RateLimited` and does no further work);
then the external generation collaborator (its failure is turn-fatal); then
extraction, dispatch of every invocation, synthesis, and the immutable
Response Record.  The generation and execution collaborators are parameters;
the per-identity quota state is threaded explicitly. -/

inductive TurnError where
  | rateLimited : Nat → TurnError
  | generationFailure : TurnError
deriving Repr, DecidableEq

structure ResponseRecord where
  reasoningTrace : String
  outcomes : List Outcome
  finalAnswer : String
  modelMetadata : String
  totalProcessingTime : Nat

/-- A one-line summary of a successful outcome for answer synthesis. -/
def summarizeOutcome (o : Outcome) : String :=
  o.toolName ++ ": " ++ (match o.result with | some v => jsString v | none => "")

/-- Modelled from the spec (§4.4 step 5): with no outcomes the generated text
itself is the final answer; with outcomes, successful results are composed
with the text; when every invocation failed the answer says so and falls back
to the raw reasoning. -/
def synthesize (text : String) (outcomes : List Outcome) : String :=
  if outcomes.isEmpty then text
  else
    let oks := outcomes.filter (fun o => o.success)
    if oks.isEmpty then "All tool attempts failed. " ++ text
    else text ++ " | " ++ String.intercalate "; " (oks.map summarizeOutcome)

/-- Modelled from the spec: one chat turn.  `gen` is the generation
collaborator (`generate(prompt, …) → text | GenerationFailure`), `exec` the
tool-execution collaborator; `now` the check time and `w` the caller's quota
state for the chat action class. -/
def handleTurn (cfg : QuotaConfig) (reg : Registry)
    (gen : String → Except Unit String) (exec : Executor)
    (now : Nat) (w : QuotaWindow) (prompt : String) :
    Except TurnError ResponseRecord × QuotaWindow :=
  match check cfg now w with
  | (.rejected retry, w') => (.error (.rateLimited retry), w')
  | (.admitted, w') =>
    match gen prompt with
    | .error _ => (.error .generationFailure, w')
    | .ok text =>
      let outcomes := dispatchAll reg exec (extract text)
      (.ok { reasoningTrace := text, outcomes := outcomes,
             finalAnswer := synthesize text outcomes,
             modelMetadata := "tinygpt", totalProcessingTime := 0 }, w')

/-! ## React frontend: `formatToolResult` (ChatResponse component)

Embedded from the source: the React component's helper is

```ts
function formatToolResult(result: any): string \x7b
  if (typeof result === 'object') \x7b
    return JSON.stringify(result, null, 2);
  \x7d
  return String(result);
\x7d
```

`result` is `toolCall.result`, a field of a parsed JSON response body, so its
domain is `JsValue` (JSON values, possibly `undefined` when absent). -/

def formatToolResult (result : JsValue) : String :=
  if result.typeofStr = "object" then stringifyV result 0
  else jsString result

/-! ## Vanilla frontend: `handleSendMessage` / `setProcessingState` (app.js)

Embedded from the source.  `handleSendMessage` reads the trimmed prompt,
returns immediately when it is empty or `isProcessing` is set, otherwise sets
the processing state *before* issuing the fetch and clears it in the
`finally` block once the response or error has been handled.  The code up to
the first `await` runs atomically on the JS event loop, so one user-visible
step is: a send attempt (button click or Enter) up to the point the fetch is
issued or the early return taken.  Completion of the fetch (success or error,
both funnel into `finally`) is the other step. -/

structure AppState where
  isProcessing : Bool
  /-- how many chat fetches the environment currently has in flight -/
  inFlight : Nat
deriving Repr, DecidableEq

/-- The initial state of `TinyGPTApp`: `this.isProcessing = false`, nothing
in flight. -/
def initialAppState : AppState := { isProcessing := false, inFlight := 0 }

inductive AppEvent where
  /-- the user triggers `handleSendMessage` with this prompt-input value -/
  | submit : String → AppEvent
  /-- one in-flight fetch settles (response or error) and the `finally`
  block of `handleSendMessage` runs -/
  | complete : AppEvent

/-- One event-loop step of `app.js`; the `Option String` is the body prompt
of the HTTP request issued by this step, if any.  `submit` embeds
`handleSendMessage` up to the fetch: trim, early return on empty prompt or
`isProcessing`, else `setProcessingState(true)` and issue the request.
`complete` embeds the continuation after `await`: handle the data or error,
then `setProcessingState(false)` in `finally`. -/
def stepApp (s : AppState) : AppEvent → AppState × Option String
  | .submit p =>
    let prompt := trimChars p.data
    if prompt.isEmpty || s.isProcessing then (s, none)
    else ({ isProcessing := true, inFlight := s.inFlight + 1 },
          some (String.mk prompt))
  | .complete =>
    if 0 < s.inFlight then
      ({ isProcessing := false, inFlight := s.inFlight - 1 }, none)
    else (s, none)

/-- Run a trace of events from a state. -/
def runApp (s : AppState) : List AppEvent → AppState
  | [] => s
  | e :: es => runApp (stepApp s e).1 es

/-! ## React frontend: `AuthProvider` mount effect (AuthContext.tsx)

Embedded from the source:

```ts
const token = localStorage.getItem('token');
if (token) \x7b
  authService.setToken(token);
  setUser(\x7b id: 'user', username: 'demo' \x7d);
\x7d
setIsLoading(false);
```

together with `authService.setToken`, which installs
`Authorization: Bearer $\x7btoken\x7d` when the token is truthy.  `getItem`
returns the stored string or `null`; a string is truthy exactly when it is
non-empty. -/

structure User where
  id : String
  username : String
deriving Repr, DecidableEq

structure AuthState where
  user : Option User
  authHeader : Option String
  isLoading : Bool
deriving Repr, DecidableEq

/-- JavaScript truthiness of `localStorage.getItem`'s result: `null` and the
empty string are falsy. -/
def jsTruthyStr : Option String → Bool
  | none => false
  | some t => !t.isEmpty

/-- The `AuthProvider` mount effect as a function of the stored token: when
the stored value is truthy, install the bearer header and set the demo user
without any server round-trip; always clear `isLoading`. -/
def authInit (stored : Option String) : AuthState :=
  match stored with
  | some t =>
    if !t.isEmpty then
      { user := some { id := "user", username := "demo" },
        authHeader := some ("Bearer " ++ t), isLoading := false }
    else { user := none, authHeader := none, isLoading := false }
  | none => { user := none, authHeader := none, isLoading := false }

/-! ## Concrete fixtures (used by witnesses) -/

/-- A registry with one enabled weather tool. -/
def demoReg : Registry := [⟨"weather", "utility", [], true⟩]

/-- A generation collaborator returning a fixed text with one known and one
unknown tool marker. -/
def demoGen : String → Except Unit String :=
  fun _ => .ok "<tool>weather</tool> and <tool>nope</tool>"

/-- An execution collaborator that always succeeds. -/
def demoExec : Executor := fun _ _ => (.ok (JsValue.str "sunny"), 1)

/-- The Response Record of the demo turn. -/
def demoResp : ResponseRecord :=
  match (handleTurn ⟨60, 30⟩ demoReg demoGen demoExec 0 ⟨0, 0⟩ "hi").1 with
  | .ok r => r
  | .error _ => { reasoningTrace := "", outcomes := [], finalAnswer := "",
                  modelMetadata := "", totalProcessingTime := 0 }

/-! ## Helper lemmas -/

/-- Resolution never changes the tool name: the Outcome for an Invocation
carries the Invocation's own `toolName`, whatever branch resolution takes. -/
theorem resolveInvocation_toolName (reg : Registry) (exec : Executor)
    (inv : Invocation) :
    (resolveInvocation reg exec inv).toolName = inv.toolName := by
  unfold resolveInvocation
  split
  · rfl
  · split
    · rfl
    · split
      · rfl
      · split <;> rfl

/-- If a pattern does not occur in `s`, it does not occur in any suffix. -/
theorem containsSeq_drop (pat s : List Char) (n : Nat)
    (h : containsSeq pat s = false) : containsSeq pat (s.drop n) = false := by
  induction s generalizing n with
  | nil => simpa using h
  | cons c rest ih =>
    cases n with
    | zero => exact h
    | succ m =>
      rw [containsSeq, Bool.or_eq_false_iff] at h
      exact ih m h.2

/-- The scanner emits nothing when the close delimiter never occurs: every
open marker in such a text is unmatched and gets skipped. -/
theorem scanGo_nil_of_no_close (fuel : Nat) :
    ∀ (s : List Char) (acc : Option (List Char)),
      containsSeq closeTag s = false → scanGo fuel s acc = [] := by
  induction fuel with
  | zero => intro s acc _; rfl
  | succ fuel ih =>
    intro s acc h
    match s, acc with
    | [], none => rfl
    | [], some _ => rfl
    | c :: rest, none =>
      rw [containsSeq, Bool.or_eq_false_iff] at h
      rw [scanGo]
      by_cases hop : openTag.isPrefixOf (c :: rest)
      · rw [if_pos hop]
        exact ih _ _ (containsSeq_drop _ _ _ (by rw [containsSeq, Bool.or_eq_false_iff]; exact h))
      · rw [if_neg hop]
        exact ih _ _ h.2
    | c :: rest, some seenRev =>
      rw [containsSeq, Bool.or_eq_false_iff] at h
      rw [scanGo, if_neg (by simp [h.1]), ]
      by_cases hop : openTag.isPrefixOf (c :: rest)
      · rw [if_pos hop]
        exact ih _ _ (containsSeq_drop _ _ _ (by rw [containsSeq, Bool.or_eq_false_iff]; exact h))
      · rw [if_neg hop]
        exact ih _ _ h.2

/-- Characterisation of a run of admission checks whose times all fall inside
the window that starts at `t0`, from a count `k` not above the limit: no
reset fires, the first `limitForClass - k` checks admit, every later check is
rejected with the remaining wait, and the final count is capped at the
limit. -/
theorem runChecks_in_window (cfg : QuotaConfig) (t0 : Nat) :
    ∀ (ts : List Nat) (k : Nat), k ≤ cfg.limitForClass →
      (∀ t ∈ ts, t - t0 < cfg.windowDuration) →
      runChecks cfg ⟨t0, k⟩ ts =
        (List.replicate (min ts.length (cfg.limitForClass - k))
            AdmitResult.admitted ++
          (ts.drop (cfg.limitForClass - k)).map
            (fun t => AdmitResult.rejected (cfg.windowDuration - (t - t0))),
         ⟨t0, min (k + ts.length) cfg.limitForClass⟩) := by
  intro ts
  induction ts with
  | nil =>
    intro k hk _
    simp [runChecks, Nat.min_eq_left hk]
  | cons t ts ih =>
    intro k hk hin
    have ht : t - t0 < cfg.windowDuration := hin t (List.mem_cons_self _ _)
    have hin' : ∀ x ∈ ts, x - t0 < cfg.windowDuration :=
      fun x hx => hin x (List.mem_cons_of_mem _ hx)
    have hres : resetIfElapsed cfg t ⟨t0, k⟩ = ⟨t0, k⟩ := by
      simp [resetIfElapsed, Nat.not_le.mpr ht]
    by_cases hfull : cfg.limitForClass ≤ k
    · have hke : k = cfg.limitForClass := Nat.le_antisymm hk hfull
      have hz : cfg.limitForClass - k = 0 := by omega
      rw [runChecks, check, hres]
      simp only [if_pos hfull]
      rw [ih k hk hin']
      simp [hz, List.map_cons]
      omega
    · have hk1 : k + 1 ≤ cfg.limitForClass := Nat.succ_le_of_lt (Nat.lt_of_not_le hfull)
      have hsub : cfg.limitForClass - k = (cfg.limitForClass - (k + 1)) + 1 := by omega
      rw [runChecks, check, hres]
      simp only [if_neg hfull]
      rw [ih (k + 1) hk1 hin']
      simp only [hsub, List.length_cons, List.drop_succ_cons,
        Nat.succ_min_succ, List.replicate_succ, List.cons_append]
      rw [show k + 1 + ts.length = k + (ts.length + 1) from by omega]

/-- Single-flight invariant of the vanilla frontend: along any event trace,
the number of in-flight chat requests is 1 while `isProcessing` is set and 0
otherwise. -/
theorem runApp_invariant (events : List AppEvent) :
    ∀ s : AppState, s.inFlight = (if s.isProcessing then 1 else 0) →
      (runApp s events).inFlight =
        (if (runApp s events).isProcessing then 1 else 0) := by
  induction events with
  | nil => intro s h; exact h
  | cons e es ih =>
    intro s h
    rw [runApp]
    apply ih
    cases e with
    | submit p =>
      simp only [stepApp]
      by_cases hc : ((trimChars p.data).isEmpty || s.isProcessing) = true
      · simp only [if_pos hc]
        exact h
      · simp only [if_neg hc]
        rw [Bool.not_eq_true, Bool.or_eq_false_iff] at hc
        rw [hc.2] at h
        simp only [if_neg (by simp : ¬(false = true))] at h
        simp [h]
    | complete =>
      simp only [stepApp]
      by_cases hf : 0 < s.inFlight
      · simp only [if_pos hf]
        have hp : s.isProcessing = true := by
          by_contra hps
          rw [Bool.not_eq_true] at hps
          rw [hps] at h
          simp at h
          omega
        rw [hp] at h
        simp at h
        simp [h]
      · simp only [if_neg hf]
        exact h

/-! ## Claim theorems -/

/-- C2: for every Outcome the orchestration core produces, exactly one of
`result` and `errorKind` is populated — `result` is present iff `success` is
true and `errorKind` is present iff `success` is false. -/
theorem outcome_result_error_exclusive (reg : Registry) (exec : Executor)
    (inv : Invocation) :
    ((resolveInvocation reg exec inv).result.isSome ↔
      (resolveInvocation reg exec inv).success = true)
    ∧ ((resolveInvocation reg exec inv).errorKind.isSome ↔
      (resolveInvocation reg exec inv).success = false) := by
  unfold resolveInvocation failedOutcome
  split
  · simp
  · split
    · simp
    · split
      · simp
      · split <;> simp

/-- C6: `setEnabled(name, enabled)` on a registered name sets the flag to the
given value and returns the flag's previous value; on an unregistered name it
returns NotFound (`none`). -/
theorem setEnabled_previous_state (reg : Registry) (name : String) (e : Bool) :
    (lookup reg name = none → setEnabled reg name e = none)
    ∧ ∀ d, lookup reg name = some d →
        (setEnabled reg name e).map Prod.fst = some d.enabled
        ∧ (setEnabled reg name e).map (fun p => lookup p.2 name) =
            some (some { d with enabled := e }) := by
  induction reg with
  | nil => exact ⟨fun _ => rfl, fun d h => by simp [lookup] at h⟩
  | cons d0 rest ih =>
    by_cases h0 : d0.name = name
    · refine ⟨fun hl => ?_, fun d hd => ?_⟩
      · simp [lookup, h0] at hl
      · rw [lookup, if_pos h0] at hd
        injection hd with hd
        subst hd
        simp [setEnabled, h0, lookup]
    · obtain ⟨ih1, ih2⟩ := ih
      refine ⟨fun hl => ?_, fun d hd => ?_⟩
      · rw [lookup, if_neg h0] at hl
        simp [setEnabled, h0, ih1 hl]
      · rw [lookup, if_neg h0] at hd
        obtain ⟨hfst, hlook⟩ := ih2 d hd
        cases hrest : setEnabled rest name e with
        | none => rw [hrest] at hfst; simp at hfst
        | some p =>
          rw [hrest] at hfst hlook
          simp only [Option.map_some'] at hfst hlook
          simp [setEnabled, h0, hrest, lookup, hfst, hlook]

/-- C7: `register(descriptor)` fails with DuplicateNameError exactly when the
name is already registered; a new name is appended, so it appears at the end
of `listAll` (registration order). -/
theorem register_duplicate_iff (reg : Registry) (d : ToolDescriptor) :
    (register reg d = .error .duplicateName ↔ (lookup reg d.name).isSome = true)
    ∧ ((lookup reg d.name).isSome = false →
        register reg d = .ok (listAll reg ++ [d])) := by
  unfold register listAll
  by_cases h : (lookup reg d.name).isSome <;> simp [h]

/-- C8: the React `ChatResponse` helper `formatToolResult` is total on every
value a parsed tool result can be, `null` and `undefined` included: values of
JavaScript type `"object"` (which includes `null`) are rendered by
`JSON.stringify(·, null, 2)`, everything else by `String(·)`; in particular
`null` yields `"null"` and `undefined` yields `"undefined"`, never an
exception. -/
theorem formatToolResult_total_on_json (v : JsValue) :
    (v.typeofStr = "object" → formatToolResult v = stringifyV v 0)
    ∧ (v.typeofStr ≠ "object" → formatToolResult v = jsString v)
    ∧ formatToolResult JsValue.null = "null"
    ∧ formatToolResult JsValue.undef = "undefined" := by
  refine ⟨fun h => ?_, fun h => ?_, rfl, rfl⟩
  · simp [formatToolResult, h]
  · simp [formatToolResult, h]

/-- Witness for C8: the object branch at a concrete object, the String branch
at a concrete number. -/
theorem formatToolResult_total_on_json_witness :
    formatToolResult (JsValue.obj [("a", JsValue.num 1)]) =
      stringifyV (JsValue.obj [("a", JsValue.num 1)]) 0
    ∧ formatToolResult (JsValue.num 3) = jsString (JsValue.num 3) :=
  ⟨(formatToolResult_total_on_json (JsValue.obj [("a", JsValue.num 1)])).1 rfl,
   (formatToolResult_total_on_json (JsValue.num 3)).2.1 (by decide)⟩

/-- C10 counterexample: the claim says every non-null stored token yields a
logged-in state, but the empty string is a non-null stored value that
JavaScript truthiness rejects: `AuthProvider` leaves the user logged out and
installs no header. -/
theorem authInit_empty_token_counterexample :
    jsTruthyStr (some "") = false
    ∧ (authInit (some "")).user = none
    ∧ (authInit (some "")).authHeader = none
    ∧ (authInit (some "")).user ≠ some { id := "user", username := "demo" } := by
  refine ⟨rfl, rfl, rfl, by decide⟩

/-- C10 (amended): on mount, every non-empty stored token — valid or not,
with no server verification — makes `AuthProvider` install the bearer header
and set the demo user; loading always ends. -/
theorem authInit_nonempty_token (t : String) (h : t.isEmpty = false) :
    (authInit (some t)).user = some { id := "user", username := "demo" }
    ∧ (authInit (some t)).authHeader = some ("Bearer " ++ t)
    ∧ (authInit (some t)).isLoading = false := by
  simp [authInit, h]

/-- Witness for the amended C10 at a concrete stored token. -/
theorem authInit_nonempty_token_witness :
    ("abc123" : String).isEmpty = false
    ∧ (authInit (some "abc123")).user = some { id := "user", username := "demo" }
    ∧ (authInit (some "abc123")).authHeader = some "Bearer abc123" :=
  ⟨by decide,
   (authInit_nonempty_token "abc123" (by decide)).1,
   (authInit_nonempty_token "abc123" (by decide)).2.1⟩

/-- C1: for an admitted turn whose generation text yields N extracted
Invocations, the Response Record's outcomes sequence has length N and
outcome i carries the toolName of extracted invocation i (extraction order);
every extracted Invocation — unknown or disabled tools included — produces
exactly one Outcome. -/
theorem response_outcomes_align (cfg : QuotaConfig) (reg : Registry)
    (gen : String → Except Unit String) (exec : Executor)
    (now : Nat) (w : QuotaWindow) (prompt text : String)
    (resp : ResponseRecord) (w' : QuotaWindow)
    (hgen : gen prompt = .ok text)
    (hok : handleTurn cfg reg gen exec now w prompt = (.ok resp, w')) :
    resp.outcomes.length = (extract text).length
    ∧ resp.outcomes.map Outcome.toolName =
        (extract text).map Invocation.toolName := by
  unfold handleTurn at hok
  split at hok
  · exact absurd (congrArg Prod.fst hok) (by simp)
  · rw [hgen] at hok
    simp only [Prod.mk.injEq, Except.ok.injEq] at hok
    have hresp := hok.1
    subst hresp
    refine ⟨?_, ?_⟩
    · simp [dispatchAll]
    · simp [dispatchAll, List.map_map, Function.comp_def, resolveInvocation_toolName]

/-- Witness for C1: a demo turn with one known and one unknown tool. -/
theorem response_outcomes_align_witness :
    demoResp.outcomes.map Outcome.toolName =
      (extract "<tool>weather</tool> and <tool>nope</tool>").map
        Invocation.toolName :=
  (response_outcomes_align ⟨60, 30⟩ demoReg demoGen demoExec 0 ⟨0, 0⟩ "hi"
    "<tool>weather</tool> and <tool>nope</tool>" demoResp ⟨0, 1⟩ rfl rfl).2

/-- C3: with all check times inside one quota window, exactly
`limitForClass` checks admit (the first ones, in order) and every further
check in the same window is rejected with the remaining wait; a check made
once the window duration has elapsed resets the window
(`windowStart = now, countInWindow = 0`) and admission resumes. -/
theorem admission_window_quota (cfg : QuotaConfig) (t0 : Nat) (ts : List Nat)
    (hin : ∀ t ∈ ts, t - t0 < cfg.windowDuration) :
    (runChecks cfg ⟨t0, 0⟩ ts).1 =
      List.replicate (min ts.length cfg.limitForClass) AdmitResult.admitted ++
        (ts.drop cfg.limitForClass).map
          (fun t => AdmitResult.rejected (cfg.windowDuration - (t - t0)))
    ∧ (∀ now w, cfg.windowDuration ≤ now - w.windowStart →
        resetIfElapsed cfg now w = ⟨now, 0⟩
        ∧ (0 < cfg.limitForClass → check cfg now w = (.admitted, ⟨now, 1⟩))) := by
  constructor
  · rw [runChecks_in_window cfg t0 ts 0 (Nat.zero_le _) hin]
    simp
  · intro now w h
    have hres : resetIfElapsed cfg now w = ⟨now, 0⟩ := by
      simp [resetIfElapsed, h]
    refine ⟨hres, fun hlim => ?_⟩
    rw [check, hres]
    simp [Nat.not_le.mpr hlim]

/-- Witness for C3: limit 2, window 60, three in-window checks — two
admissions then a rejection with the remaining wait. -/
theorem admission_window_quota_witness :
    (runChecks ⟨60, 2⟩ ⟨0, 0⟩ [1, 2, 3]).1 =
      [AdmitResult.admitted, AdmitResult.admitted, AdmitResult.rejected 57] :=
  ((admission_window_quota ⟨60, 2⟩ 0 [1, 2, 3] (by decide)).1).trans (by decide)

/-- C4: a rejected request terminates the turn with `RateLimited` carrying a
positive retry hint `windowDuration - (now - windowStart)`, and no further
work happens — the result does not depend on the generation collaborator,
the registry or the execution collaborator, so neither is ever invoked. -/
theorem rejected_turn_no_work (cfg : QuotaConfig) (reg reg' : Registry)
    (gen gen' : String → Except Unit String) (exec exec' : Executor)
    (now : Nat) (w : QuotaWindow) (prompt : String) (r : Nat) (w' : QuotaWindow)
    (hlim : 0 < cfg.limitForClass)
    (hrej : check cfg now w = (.rejected r, w')) :
    handleTurn cfg reg gen exec now w prompt = (.error (.rateLimited r), w')
    ∧ handleTurn cfg reg gen exec now w prompt =
        handleTurn cfg reg' gen' exec' now w prompt
    ∧ r = cfg.windowDuration - (now - w'.windowStart)
    ∧ 0 < r := by
  have h1 : handleTurn cfg reg gen exec now w prompt =
      (.error (.rateLimited r), w') := by
    unfold handleTurn
    rw [hrej]
  have h2 : handleTurn cfg reg' gen' exec' now w' prompt =
      handleTurn cfg reg' gen' exec' now w' prompt := rfl
  refine ⟨h1, ?_, ?_⟩
  · rw [h1]
    unfold handleTurn
    rw [hrej]
  · simp only [check] at hrej
    by_cases helapsed : cfg.windowDuration ≤ now - w.windowStart
    · rw [show resetIfElapsed cfg now w = ⟨now, 0⟩ from by
        simp [resetIfElapsed, helapsed]] at hrej
      simp only [show ¬(cfg.limitForClass ≤ (⟨now, 0⟩ : QuotaWindow).countInWindow)
        from by simpa using Nat.not_le.mpr hlim, if_false, if_neg] at hrej
      exact absurd (congrArg Prod.fst hrej) (by simp)
    · rw [show resetIfElapsed cfg now w = w from by
        simp [resetIfElapsed, helapsed]] at hrej
      by_cases hfull : cfg.limitForClass ≤ w.countInWindow
      · simp only [if_pos hfull] at hrej
        simp only [Prod.mk.injEq, AdmitResult.rejected.injEq] at hrej
        obtain ⟨hr, hw⟩ := hrej
        subst hw
        subst hr
        exact ⟨rfl, by omega⟩
      · simp only [if_neg hfull] at hrej
        exact absurd (congrArg Prod.fst hrej) (by simp)

/-- Witness for C4: a saturated window rejects the next check and the turn
short-circuits identically for two different collaborator sets. -/
theorem rejected_turn_no_work_witness :
    handleTurn ⟨60, 2⟩ demoReg demoGen demoExec 5 ⟨0, 2⟩ "hi" =
      (.error (.rateLimited 55), ⟨0, 2⟩)
    ∧ handleTurn ⟨60, 2⟩ demoReg demoGen demoExec 5 ⟨0, 2⟩ "hi" =
        handleTurn ⟨60, 2⟩ [] (fun _ => .error ()) (fun _ _ => (.error "x", 0))
          5 ⟨0, 2⟩ "hi" :=
  ⟨(rejected_turn_no_work ⟨60, 2⟩ demoReg [] demoGen (fun _ => .error ())
      demoExec (fun _ _ => (.error "x", 0)) 5 ⟨0, 2⟩ "hi" 55 ⟨0, 2⟩
      (by decide) (by decide)).1,
   (rejected_turn_no_work ⟨60, 2⟩ demoReg [] demoGen (fun _ => .error ())
      demoExec (fun _ _ => (.error "x", 0)) 5 ⟨0, 2⟩ "hi" 55 ⟨0, 2⟩
      (by decide) (by decide)).2.1⟩

/-- C5: the Call Extractor is a total function — it returns an Invocation
sequence for every input and no failure propagates — and a malformed marker
is simply omitted: in any text where the close delimiter never occurs, every
open marker is unmatched and the extractor returns the empty sequence. -/
theorem extract_skips_unterminated (text : String)
    (hmal : containsSeq closeTag text.data = false) :
    extract text = [] :=
  scanGo_nil_of_no_close text.data.length text.data none hmal

/-- Witness for C5: an unterminated open marker yields no invocation and no
failure. -/
theorem extract_skips_unterminated_witness :
    extract "try <tool>weather with no close marker" = [] :=
  extract_skips_unterminated "try <tool>weather with no close marker" (by decide)

/-- Witness for C6: toggling a registered tool returns its previous flag;
toggling an unknown name reports NotFound. -/
theorem setEnabled_previous_state_witness :
    setEnabled [⟨"weather", "utility", [], true⟩] "nope" false = none
    ∧ (setEnabled [⟨"weather", "utility", [], true⟩] "weather" false).map
        Prod.fst = some true :=
  ⟨(setEnabled_previous_state [⟨"weather", "utility", [], true⟩] "nope"
      false).1 rfl,
   ((setEnabled_previous_state [⟨"weather", "utility", [], true⟩] "weather"
      false).2 ⟨"weather", "utility", [], true⟩ rfl).1⟩

/-- Witness for C7: re-registering an existing name fails with
DuplicateNameError; a fresh name is appended at the end of listAll. -/
theorem register_duplicate_iff_witness :
    register [⟨"weather", "utility", [], true⟩]
        ⟨"weather", "other", [], false⟩ = .error .duplicateName
    ∧ register [⟨"weather", "utility", [], true⟩]
        ⟨"crypto", "finance", [], true⟩ =
      .ok (listAll [⟨"weather", "utility", [], true⟩] ++
        [⟨"crypto", "finance", [], true⟩]) :=
  ⟨(register_duplicate_iff [⟨"weather", "utility", [], true⟩]
      ⟨"weather", "other", [], false⟩).1.mpr (by decide),
   (register_duplicate_iff [⟨"weather", "utility", [], true⟩]
      ⟨"crypto", "finance", [], true⟩).2 (by decide)⟩

/-- C9: the vanilla frontend never has two chat requests in flight (along any
event trace the in-flight count is 1 exactly while `isProcessing` holds, so
never above 1) and never sends an empty prompt: a submit while processing or
with a prompt that trims to empty issues no request and changes nothing;
an issued request sets `isProcessing` before the fetch and carries the
non-empty trimmed prompt; completion (response or error) resets
`isProcessing`. -/
theorem frontend_single_flight (events : List AppEvent) (s : AppState)
    (p prompt : String) (s' : AppState) :
    ((runApp initialAppState events).inFlight =
        (if (runApp initialAppState events).isProcessing then 1 else 0)
      ∧ (runApp initialAppState events).inFlight ≤ 1)
    ∧ (s.isProcessing = true ∨ (trimChars p.data).isEmpty = true →
        stepApp s (.submit p) = (s, none))
    ∧ (stepApp s (.submit p) = (s', some prompt) →
        s'.isProcessing = true ∧ s.isProcessing = false
        ∧ prompt = String.mk (trimChars p.data)
        ∧ (trimChars p.data).isEmpty = false)
    ∧ (0 < s.inFlight → (stepApp s .complete).1.isProcessing = false) := by
  refine ⟨?_, fun h => ?_, fun h => ?_, fun h => ?_⟩
  · have hinv := runApp_invariant events initialAppState rfl
    exact ⟨hinv, by rw [hinv]; split <;> omega⟩
  · rcases h with h | h
    · simp [stepApp, h]
    · simp [stepApp, h]
  · simp only [stepApp] at h
    by_cases hc : ((trimChars p.data).isEmpty || s.isProcessing) = true
    · simp only [if_pos hc] at h
      exact absurd (congrArg Prod.snd h) (by simp)
    · simp only [if_neg hc] at h
      rw [Bool.not_eq_true, Bool.or_eq_false_iff] at hc
      simp only [Prod.mk.injEq, Option.some.injEq] at h
      refine ⟨by rw [← h.1], hc.2, h.2.symm, hc.1⟩
  · simp [stepApp, h]

/-- Witness for C9: a concrete trace (send, blocked duplicate send,
completion) plus concrete blocked-submit and completion steps. -/
theorem frontend_single_flight_witness :
    (runApp initialAppState
        [.submit " hi ", .submit "again", .complete]).inFlight ≤ 1
    ∧ stepApp ⟨true, 1⟩ (.submit "again") = (⟨true, 1⟩, none)
    ∧ (stepApp ⟨true, 1⟩ AppEvent.complete).1.isProcessing = false :=
  ⟨(frontend_single_flight [.submit " hi ", .submit "again", .complete]
      ⟨true, 1⟩ "again" "again" ⟨true, 1⟩).1.2,
   (frontend_single_flight [] ⟨true, 1⟩ "again" "again" ⟨true, 1⟩).2.1
      (Or.inl rfl),
   (frontend_single_flight [] ⟨true, 1⟩ "again" "again" ⟨true, 1⟩).2.2.2
      (by decide)⟩

end TinyGPT
